import Mathlib

/-
Shallow embedding of the TuteDude backend (src/backend/main.py,
src/backend/order_tracking.py, src/backend/chat.py).

The Supabase datastore is modelled as explicit Lean lists standing for the
rows of the orders, order_items, messages and profiles tables.  Each request
handler becomes a pure function from the caller's JWT claims, the request
parameters and the datastore state to a result (and, for mutating handlers,
the new datastore state).  Fallibility of the external store is modelled by
an explicit Boolean parameter standing for whether the insert/update/select
call returned an error, and the Google Translate gateway is modelled as an
oracle function returning an optional translation.  A Python runtime
exception that the handler does not catch (for example ValueError from
list.index) is modelled by a dedicated result constructor.
-/

/-- Claims decoded from the bearer JWT: payload.sub and payload.get of role
(absent key modelled as none). -/
structure UserClaims where
  sub : String
  role : Option String
deriving DecidableEq, Repr

/-- Row of the order_items table (price is carried opaquely; the handlers
never compute with it). -/
structure OrderItem where
  id : Nat
  order_id : Nat
  item_name : String
  quantity : Nat
  price : Int
deriving DecidableEq, Repr

/-- Row of the orders table.  status_timestamps is the jsonb object, modelled
as an insertion-ordered association list exactly like a Python dict. -/
structure Order where
  id : Nat
  buyer_id : String
  seller_id : String
  status : String
  status_timestamps : List (String × String)
  created_at : String
deriving DecidableEq, Repr

/-- Python dict membership test: k in d. -/
def hasKey (d : List (String × String)) (k : String) : Bool :=
  d.any (fun p => p.1 = k)

/-- Python dict assignment d[k] = v: overwrite in place when the key exists,
append otherwise (dicts preserve insertion order). -/
def setItem (d : List (String × String)) (k v : String) : List (String × String) :=
  if hasKey d k then d.map (fun p => if p.1 = k then (k, v) else p)
  else d ++ [(k, v)]

/-- Python list.index, made total by returning none instead of raising
ValueError; the handlers use it without catching, so a none here surfaces
as an unhandled exception. -/
def index? (xs : List String) (x : String) : Option Nat :=
  match xs with
  | [] => none
  | y :: ys => if y = x then some 0 else (index? ys x).map (fun i => i + 1)

/-- Result of POST /orders/{order_id}/status: the success JSON, an
HTTPException, or an uncaught Python exception. -/
inductive UpdateResult where
  | ok (message : String) (order_id : Nat) (new_status : String)
  | httpError (status_code : Nat) (detail : String)
  | pythonError
deriving DecidableEq, Repr

/-- Result of GET /orders/{user_id}: each order paired with its attached
items, or an HTTPException. -/
inductive OrdersResult where
  | ok (orders : List (Order × List OrderItem))
  | httpError (status_code : Nat) (detail : String)
deriving DecidableEq, Repr

namespace Main

/-- The fixed ordered status list of main.py. -/
def ORDER_STATUSES : List String :=
  ["Placed", "Accepted", "Out for Delivery", "Delivered"]

/-- GET /orders/{user_id} from main.py: authorization check, role-based
filter, bulk fetch of order_items grouped by order_id. -/
def get_orders (orders : List Order) (order_items : List OrderItem)
    (user_id : String) (user : UserClaims) : OrdersResult :=
  if user.sub ≠ user_id ∧ user.role ≠ some ("seller") then
    .httpError 403 ("Forbidden")
  else if user.role = some ("buyer") then
    .ok ((orders.filter (fun o => o.buyer_id = user_id)).map
      (fun o => (o, order_items.filter (fun it => it.order_id = o.id))))
  else if user.role = some ("seller") then
    .ok ((orders.filter (fun o => o.seller_id = user_id)).map
      (fun o => (o, order_items.filter (fun it => it.order_id = o.id))))
  else
    .httpError 403 ("Invalid role")

/-- POST /orders/{order_id}/status from main.py.  updateOk models whether the
datastore update call succeeds; the returned list is the orders table after
the request. -/
def update_order_status (orders : List Order) (order_id : Nat)
    (new_status : String) (user : UserClaims) (now : String)
    (updateOk : Bool) : UpdateResult × List Order :=
  if user.role ≠ some ("seller") then
    (.httpError 403 ("Only sellers can update order status"), orders)
  else
    match orders.find? (fun o => o.id = order_id) with
    | none => (.httpError 404 ("Order not found"), orders)
    | some order =>
      if order.seller_id ≠ user.sub then
        (.httpError 403 ("You can only update your own orders"), orders)
      else if ¬ (new_status ∈ ORDER_STATUSES) then
        (.httpError 400 ("Invalid status"), orders)
      else
        match index? ORDER_STATUSES new_status, index? ORDER_STATUSES order.status with
        | some ni, some ci =>
          if ni ≠ ci + 1 then
            (.httpError 400 ("Invalid status transition"), orders)
          else
            let status_timestamps := setItem order.status_timestamps new_status now
            if updateOk then
              (.ok ("Order status updated") order_id new_status,
               orders.map (fun o =>
                 if o.id = order_id then
                   { o with status := new_status,
                            status_timestamps := status_timestamps }
                 else o))
            else
              (.httpError 500 ("Failed to update order status"), orders)
        | _, _ => (.pythonError, orders)

end Main

namespace OrderTracking

/-- The fixed ordered status list of order_tracking.py. -/
def ORDER_STATUSES : List String :=
  ["Placed", "Accepted", "Out for Delivery", "Delivered"]

/-- GET /orders/{user_id} from order_tracking.py: authorization check,
role-based filter, bulk fetch of order_items grouped by order_id. -/
def get_orders (orders : List Order) (order_items : List OrderItem)
    (user_id : String) (user : UserClaims) : OrdersResult :=
  if user.sub ≠ user_id ∧ user.role ≠ some ("seller") then
    .httpError 403 ("Forbidden")
  else if user.role = some ("buyer") then
    .ok ((orders.filter (fun o => o.buyer_id = user_id)).map
      (fun o => (o, order_items.filter (fun it => it.order_id = o.id))))
  else if user.role = some ("seller") then
    .ok ((orders.filter (fun o => o.seller_id = user_id)).map
      (fun o => (o, order_items.filter (fun it => it.order_id = o.id))))
  else
    .httpError 403 ("Invalid role")

/-- POST /orders/{order_id}/status from order_tracking.py. -/
def update_order_status (orders : List Order) (order_id : Nat)
    (new_status : String) (user : UserClaims) (now : String)
    (updateOk : Bool) : UpdateResult × List Order :=
  if user.role ≠ some ("seller") then
    (.httpError 403 ("Only sellers can update order status"), orders)
  else
    match orders.find? (fun o => o.id = order_id) with
    | none => (.httpError 404 ("Order not found"), orders)
    | some order =>
      if order.seller_id ≠ user.sub then
        (.httpError 403 ("You can only update your own orders"), orders)
      else if ¬ (new_status ∈ ORDER_STATUSES) then
        (.httpError 400 ("Invalid status"), orders)
      else
        match index? ORDER_STATUSES new_status, index? ORDER_STATUSES order.status with
        | some ni, some ci =>
          if ni ≠ ci + 1 then
            (.httpError 400 ("Invalid status transition"), orders)
          else
            let status_timestamps := setItem order.status_timestamps new_status now
            if updateOk then
              (.ok ("Order status updated") order_id new_status,
               orders.map (fun o =>
                 if o.id = order_id then
                   { o with status := new_status,
                            status_timestamps := status_timestamps }
                 else o))
            else
              (.httpError 500 ("Failed to update order status"), orders)
        | _, _ => (.pythonError, orders)

end OrderTracking

/-- Python str.split(sep) for a one-character separator: split on every
occurrence, keeping empty components (so "".split gives [""] and
"a_".split("_") gives ["a", ""]). -/
def pySplitAux (sep : Char) : List Char → List Char → List (List Char)
  | [], acc => [acc.reverse]
  | c :: cs, acc =>
    if c = sep then acc.reverse :: pySplitAux sep cs []
    else pySplitAux sep cs (c :: acc)

/-- Python s.split(sep) on a string. -/
def pySplit (sep : Char) (s : String) : List String :=
  (pySplitAux sep s.toList []).map (fun cs => String.mk cs)

namespace Chat

/-- Row of the profiles table as read by chat.py: the preferred_language
column, none standing for SQL null. -/
structure Profile where
  id : String
  preferred_language : Option String
deriving DecidableEq, Repr

/-- Row of the messages table. -/
structure MessageRow where
  id : Nat
  sender_id : String
  receiver_id : String
  message : String
  translated_message : Option String
  timestamp : String
deriving DecidableEq, Repr

/-- The payload inserted into the messages table by send_message (id and
timestamp are assigned by the store). -/
structure MessageInsert where
  sender_id : String
  receiver_id : String
  message : String
  translated_message : Option String
deriving DecidableEq, Repr

/-- Result of POST /messages/send. -/
inductive SendResult where
  | ok (message : String)
  | httpError (status_code : Nat) (detail : String)
deriving DecidableEq, Repr

/-- Result of GET /messages/{conversation_id}. -/
inductive MessagesResult where
  | ok (messages : List MessageRow)
  | httpError (status_code : Nat) (detail : String)
deriving DecidableEq, Repr

/-- The language lookup of send_message: select preferred_language for the
given id; a missing profile row defaults to en, an existing row yields its
(possibly null) column value. -/
def getLang (profiles : List Profile) (uid : String) : Option String :=
  match profiles.find? (fun p => p.id = uid) with
  | some p => p.preferred_language
  | none => some ("en")

/-- Everything observable about one send_message call: the HTTP result, the
row inserted into the messages table (none when the insert failed), and
whether the translation gateway was invoked. -/
structure SendEffect where
  result : SendResult
  inserted : Option MessageInsert
  translateCalled : Bool
deriving DecidableEq, Repr

/-- POST /messages/send from chat.py.  translateGateway is the oracle for
translate_text (arguments: text, target language, source language; none
models a non-200 provider response), insertOk models whether the datastore
insert succeeds. -/
def send_message (profiles : List Profile) (user : UserClaims)
    (receiver_id message : String)
    (translateGateway : String → Option String → Option String → Option String)
    (insertOk : Bool) : SendEffect :=
  let sender_id := user.sub
  let sender_lang := getLang profiles sender_id
  let receiver_lang := getLang profiles receiver_id
  let translated_message : Option String :=
    if sender_lang ≠ receiver_lang then
      translateGateway message receiver_lang sender_lang
    else none
  let row : MessageInsert :=
    ⟨sender_id, receiver_id, message, translated_message⟩
  if insertOk then
    { result := .ok ("Message sent"), inserted := some row,
      translateCalled := sender_lang ≠ receiver_lang }
  else
    { result := .httpError 500 ("Failed to send message"), inserted := none,
      translateCalled := sender_lang ≠ receiver_lang }

/-- Ascending timestamp order used by the messages query. -/
def tsLe (m1 m2 : MessageRow) : Prop :=
  m1.timestamp ≤ m2.timestamp

instance : DecidableRel tsLe := fun m1 m2 => by
  unfold tsLe; infer_instance

instance : IsTotal MessageRow tsLe :=
  ⟨fun m1 m2 => le_total m1.timestamp m2.timestamp⟩

instance : IsTrans MessageRow tsLe :=
  ⟨fun _ _ _ h1 h2 => le_trans h1 h2⟩

/-- Supabase range(from, to): rows from index from to index to, both
inclusive. -/
def rangeRows (rows : List MessageRow) (start stop : Nat) : List MessageRow :=
  (rows.drop start).take (stop + 1 - start)

/-- The filter of the messages query: (sender, receiver) is one of the two
ordered pairs formed by the conversation's ids. -/
def inConversation (a b : String) (m : MessageRow) : Prop :=
  (m.sender_id = a ∧ m.receiver_id = b) ∨ (m.sender_id = b ∧ m.receiver_id = a)

instance (a b : String) (m : MessageRow) : Decidable (inConversation a b m) := by
  unfold inConversation; infer_instance

/-- GET /messages/{conversation_id} from chat.py.  The datastore query is
modelled as filter by conversation pair, sort ascending by timestamp, then
range(offset, offset + limit - 1); fetchOk models whether the select
succeeds. -/
def get_messages (store : List MessageRow) (conversation_id : String)
    (user : UserClaims) (limit offset : Nat) (fetchOk : Bool) : MessagesResult :=
  let user_ids := pySplit '_' conversation_id
  if user_ids.length ≠ 2 then
    .httpError 400 ("Invalid conversation_id")
  else if ¬ (user.sub ∈ user_ids) then
    .httpError 403 ("Forbidden")
  else
    let a := user_ids.getD 0 ""
    let b := user_ids.getD 1 ""
    if fetchOk then
      .ok (rangeRows
        (List.insertionSort tsLe (store.filter (fun m => inConversation a b m)))
        offset (offset + limit - 1))
    else
      .httpError 500 ("Failed to fetch messages")

end Chat

/-- Index of an order's stored status in the fixed status list (none when the
stored status lies outside the list). -/
def statusIdx (o : Order) : Option Nat :=
  index? Main.ORDER_STATUSES o.status

/-- The dict d' keeps every key of d. -/
def keysSub (d d' : List (String × String)) : Prop :=
  ∀ k, hasKey d k = true → hasKey d' k = true

/-- Well-formed order state: the stored status is in the status list and
every status_timestamps key is a status no later in the list than the
current one (this is the state produced by a well-formed transition
sequence from the initial Placed state with empty timestamps). -/
def WFOrder (o : Order) : Prop :=
  ∃ ci, statusIdx o = some ci ∧
    ∀ k, hasKey o.status_timestamps k = true →
      ∃ i, index? Main.ORDER_STATUSES k = some i ∧ i ≤ ci

/-- One request to POST /orders/{order_id}/status. -/
structure UpdateOp where
  order_id : Nat
  new_status : String
  user : UserClaims
  now : String
  updateOk : Bool

/-- Datastore state after a sequence of status-update requests. -/
def runUpdates (ops : List UpdateOp) (orders : List Order) : List Order :=
  ops.foldl
    (fun st op =>
      (Main.update_order_status st op.order_id op.new_status op.user op.now
        op.updateOk).snd)
    orders

/-- An order row evolves into another: same id, no timestamp key is lost, and
the status index never moves backward (a row whose stored status is outside
the list can never change at all). -/
def Reaches (o o' : Order) : Prop :=
  o'.id = o.id ∧ keysSub o.status_timestamps o'.status_timestamps ∧
    ((statusIdx o = none ∧ o' = o) ∨
     (∃ i j, statusIdx o = some i ∧ statusIdx o' = some j ∧ i ≤ j))

/-
Helper lemmas about the embedded Python primitives.
-/

theorem index?_eq_none_iff (xs : List String) (x : String) :
    index? xs x = none ↔ x ∉ xs := by
  induction xs with
  | nil => simp [index?]
  | cons y ys ih =>
    by_cases h : y = x
    · subst h; simp [index?]
    · simp [index?, h, Option.map_eq_none', ih, List.mem_cons, Ne.symm h]

theorem mem_of_index?_eq_some {xs : List String} {x : String} {i : Nat}
    (h : index? xs x = some i) : x ∈ xs := by
  by_contra hmem
  rw [(index?_eq_none_iff xs x).mpr hmem] at h
  exact Option.noConfusion h

theorem index?_isSome_of_mem {xs : List String} {x : String} (h : x ∈ xs) :
    ∃ i, index? xs x = some i := by
  cases hx : index? xs x with
  | none => exact absurd ((index?_eq_none_iff xs x).mp hx) (by simp [h])
  | some i => exact ⟨i, rfl⟩

theorem setItem_of_not_hasKey {d : List (String × String)} {k : String} (v : String)
    (h : hasKey d k = false) : setItem d k v = d ++ [(k, v)] := by
  simp [setItem, h]

theorem hasKey_setItem (d : List (String × String)) (k v k' : String)
    (h : hasKey d k' = true) : hasKey (setItem d k v) k' = true := by
  unfold setItem
  by_cases hk : hasKey d k
  · simp only [hk, if_true]
    simp only [hasKey, List.any_map, List.any_eq_true] at h ⊢
    obtain ⟨p, hp, hpk⟩ := h
    refine ⟨p, hp, ?_⟩
    simp only [Function.comp]
    by_cases hpk2 : p.1 = k <;> simp_all
  · rw [Bool.not_eq_true] at hk
    simp only [hk, Bool.false_eq_true, if_false]
    simp only [hasKey, List.any_append, Bool.or_eq_true, List.any_eq_true] at h ⊢
    exact Or.inl h

/-- C9: The order-handling logic duplicated across main.py and
order_tracking.py is extensionally equal: get_orders and get_orders, and
update_order_status and update_order_status, are the same function (same
result and same datastore effect on every input). -/
theorem C9_modules_extensionally_equal :
    Main.get_orders = OrderTracking.get_orders ∧
    Main.update_order_status = OrderTracking.update_order_status :=
  ⟨rfl, rfl⟩

/-- C2: In update_order_status, a caller whose role is not seller is rejected
with Forbidden for every datastore state (hence before any order lookup); a
missing order yields NotFound; a seller whose id differs from the order's
seller_id is rejected with Forbidden; each rejection holds for every supplied
new_status and leaves the datastore unchanged. -/
theorem C2_update_status_auth_checks (orders : List Order) (order_id : Nat)
    (new_status : String) (user : UserClaims) (now : String) (updateOk : Bool) :
    (user.role ≠ some ("seller") →
      Main.update_order_status orders order_id new_status user now updateOk =
        (.httpError 403 ("Only sellers can update order status"), orders)) ∧
    (user.role = some ("seller") →
      orders.find? (fun o => o.id = order_id) = none →
      Main.update_order_status orders order_id new_status user now updateOk =
        (.httpError 404 ("Order not found"), orders)) ∧
    (∀ order, user.role = some ("seller") →
      orders.find? (fun o => o.id = order_id) = some order →
      order.seller_id ≠ user.sub →
      Main.update_order_status orders order_id new_status user now updateOk =
        (.httpError 403 ("You can only update your own orders"), orders)) := by
  refine ⟨?_, ?_, ?_⟩
  · intro h
    simp [Main.update_order_status, h]
  · intro h hf
    simp [Main.update_order_status, h, hf]
  · intro order h hf hs
    simp [Main.update_order_status, h, hf, hs]

/-- Witness for C2 at concrete inputs: a buyer caller, a seller caller with a
missing order, and a seller caller on another seller's order. -/
theorem C2_update_status_auth_checks_witness :
    Main.update_order_status [] 1 ("Accepted") ⟨"u1", some ("buyer")⟩ ("t0") true =
      (.httpError 403 ("Only sellers can update order status"), []) ∧
    Main.update_order_status [] 1 ("Accepted") ⟨"s1", some ("seller")⟩ ("t0") true =
      (.httpError 404 ("Order not found"), []) ∧
    Main.update_order_status [⟨1, "b1", "s2", "Placed", [], "c0"⟩] 1 ("Accepted")
        ⟨"s1", some ("seller")⟩ ("t0") true =
      (.httpError 403 ("You can only update your own orders"),
       [⟨1, "b1", "s2", "Placed", [], "c0"⟩]) := by
  refine ⟨?_, ?_, ?_⟩
  · exact (C2_update_status_auth_checks [] 1 ("Accepted") ⟨"u1", some ("buyer")⟩
      ("t0") true).1 (by decide)
  · exact (C2_update_status_auth_checks [] 1 ("Accepted") ⟨"s1", some ("seller")⟩
      ("t0") true).2.1 rfl (by decide)
  · exact (C2_update_status_auth_checks [⟨1, "b1", "s2", "Placed", [], "c0"⟩] 1
      ("Accepted") ⟨"s1", some ("seller")⟩ ("t0") true).2.2
      ⟨1, "b1", "s2", "Placed", [], "c0"⟩ rfl (by decide) (by decide)

/-- C7: get_orders rejects with Forbidden unless the caller equals user_id or
holds the seller role; an allowed buyer receives exactly the orders with
buyer_id = user_id, a seller receives exactly the orders with
seller_id = user_id for any supplied user_id, and any other role is rejected
with a 403. -/
theorem C7_get_orders_role_filter (orders : List Order)
    (order_items : List OrderItem) (user_id : String) (user : UserClaims) :
    (user.sub ≠ user_id → user.role ≠ some ("seller") →
      Main.get_orders orders order_items user_id user =
        .httpError 403 ("Forbidden")) ∧
    (user.role = some ("buyer") → user.sub = user_id →
      Main.get_orders orders order_items user_id user =
        .ok ((orders.filter (fun o => o.buyer_id = user_id)).map
          (fun o => (o, order_items.filter (fun it => it.order_id = o.id))))) ∧
    (user.role = some ("seller") →
      Main.get_orders orders order_items user_id user =
        .ok ((orders.filter (fun o => o.seller_id = user_id)).map
          (fun o => (o, order_items.filter (fun it => it.order_id = o.id))))) ∧
    (user.role ≠ some ("buyer") → user.role ≠ some ("seller") →
      ∃ detail, Main.get_orders orders order_items user_id user =
        .httpError 403 detail) := by
  refine ⟨?_, ?_, ?_, ?_⟩
  · intro h1 h2
    simp [Main.get_orders, h1, h2]
  · intro h1 h2
    simp [Main.get_orders, h1, h2]
  · intro h1
    simp [Main.get_orders, h1]
  · intro h1 h2
    by_cases hsub : user.sub = user_id
    · exact ⟨"Invalid role", by simp [Main.get_orders, hsub, h1, h2]⟩
    · exact ⟨"Forbidden", by simp [Main.get_orders, hsub, h2]⟩

/-- Witness for C7 at concrete inputs: a stranger buyer is rejected, a buyer
sees their buyer-orders, a seller sees seller-orders for an arbitrary
user_id, and an unknown role gets a 403. -/
theorem C7_get_orders_role_filter_witness :
    Main.get_orders [⟨1, "b1", "s1", "Placed", [], "c0"⟩] [] ("b1")
        ⟨"x9", some ("buyer")⟩ = .httpError 403 ("Forbidden") ∧
    Main.get_orders [⟨1, "b1", "s1", "Placed", [], "c0"⟩] [] ("b1")
        ⟨"b1", some ("buyer")⟩ =
      .ok [(⟨1, "b1", "s1", "Placed", [], "c0"⟩, [])] ∧
    Main.get_orders [⟨1, "b1", "s1", "Placed", [], "c0"⟩] [] ("s1")
        ⟨"s9", some ("seller")⟩ =
      .ok [(⟨1, "b1", "s1", "Placed", [], "c0"⟩, [])] ∧
    ∃ detail, Main.get_orders [] [] ("b1") ⟨"b1", some ("admin")⟩ =
      .httpError 403 detail := by
  refine ⟨?_, ?_, ?_, ?_⟩
  · exact (C7_get_orders_role_filter [⟨1, "b1", "s1", "Placed", [], "c0"⟩] []
      ("b1") ⟨"x9", some ("buyer")⟩).1 (by decide) (by decide)
  · exact (C7_get_orders_role_filter [⟨1, "b1", "s1", "Placed", [], "c0"⟩] []
      ("b1") ⟨"b1", some ("buyer")⟩).2.1 rfl rfl
  · exact (C7_get_orders_role_filter [⟨1, "b1", "s1", "Placed", [], "c0"⟩] []
      ("s1") ⟨"s9", some ("seller")⟩).2.2.1 rfl
  · exact (C7_get_orders_role_filter [] [] ("b1") ⟨"b1", some ("admin")⟩).2.2.2
      (by decide) (by decide)

/-- C1: For an existing order whose seller is the caller, update_order_status
succeeds exactly when the index of new_status in the ordered status list is
the index of the current status plus one; a new_status in the list violating
that is rejected with BadRequest Invalid status transition leaving the
stored orders unchanged, and a new_status outside the list is rejected with
BadRequest Invalid status, also leaving the stored orders unchanged. -/
theorem C1_update_status_transition (orders : List Order) (order_id : Nat)
    (new_status : String) (user : UserClaims) (now : String) (order : Order)
    (ci : Nat)
    (hrole : user.role = some ("seller"))
    (hfind : orders.find? (fun o => o.id = order_id) = some order)
    (hsell : order.seller_id = user.sub)
    (hci : index? Main.ORDER_STATUSES order.status = some ci) :
    ((Main.update_order_status orders order_id new_status user now true).fst =
        .ok ("Order status updated") order_id new_status ↔
      index? Main.ORDER_STATUSES new_status = some (ci + 1)) ∧
    (new_status ∈ Main.ORDER_STATUSES →
      index? Main.ORDER_STATUSES new_status ≠ some (ci + 1) →
      Main.update_order_status orders order_id new_status user now true =
        (.httpError 400 ("Invalid status transition"), orders)) ∧
    (new_status ∉ Main.ORDER_STATUSES →
      Main.update_order_status orders order_id new_status user now true =
        (.httpError 400 ("Invalid status"), orders)) := by
  by_cases hmem : new_status ∈ Main.ORDER_STATUSES
  · obtain ⟨ni, hni⟩ := index?_isSome_of_mem hmem
    by_cases heq : ni = ci + 1
    · subst heq
      refine ⟨?_, ?_, ?_⟩
      · simp [Main.update_order_status, hrole, hfind, hsell, hmem, hni, hci]
      · intro _ hne
        exact absurd hni hne
      · intro h
        exact absurd hmem h
    · refine ⟨?_, ?_, ?_⟩
      · simp [Main.update_order_status, hrole, hfind, hsell, hmem, hni, hci, heq]
      · intro _ _
        simp [Main.update_order_status, hrole, hfind, hsell, hmem, hni, hci, heq]
      · intro h
        exact absurd hmem h
  · have hnone : index? Main.ORDER_STATUSES new_status = none :=
      (index?_eq_none_iff _ _).mpr hmem
    refine ⟨?_, ?_, ?_⟩
    · simp [Main.update_order_status, hrole, hfind, hsell, hmem, hnone]
    · intro h
      exact absurd h hmem
    · intro _
      simp [Main.update_order_status, hrole, hfind, hsell, hmem]

/-- Witness for C1 at a concrete input: an order at Placed, its seller moving
it to Accepted (index 1 = 0 + 1). -/
theorem C1_update_status_transition_witness :
    ((Main.update_order_status [⟨1, "b1", "s1", "Placed", [], "c0"⟩] 1
        ("Accepted") ⟨"s1", some ("seller")⟩ ("t1") true).fst =
        .ok ("Order status updated") 1 ("Accepted") ↔
      index? Main.ORDER_STATUSES ("Accepted") = some (0 + 1)) ∧
    (("Accepted" : String) ∈ Main.ORDER_STATUSES →
      index? Main.ORDER_STATUSES ("Accepted") ≠ some (0 + 1) →
      Main.update_order_status [⟨1, "b1", "s1", "Placed", [], "c0"⟩] 1
        ("Accepted") ⟨"s1", some ("seller")⟩ ("t1") true =
        (.httpError 400 ("Invalid status transition"),
         [⟨1, "b1", "s1", "Placed", [], "c0"⟩])) ∧
    (("Accepted" : String) ∉ Main.ORDER_STATUSES →
      Main.update_order_status [⟨1, "b1", "s1", "Placed", [], "c0"⟩] 1
        ("Accepted") ⟨"s1", some ("seller")⟩ ("t1") true =
        (.httpError 400 ("Invalid status"),
         [⟨1, "b1", "s1", "Placed", [], "c0"⟩])) :=
  C1_update_status_transition [⟨1, "b1", "s1", "Placed", [], "c0"⟩] 1
    ("Accepted") ⟨"s1", some ("seller")⟩ ("t1")
    ⟨1, "b1", "s1", "Placed", [], "c0"⟩ 0 rfl (by decide) (by decide) (by decide)

/-- C10: update_order_status validates membership for new_status only; when
the stored order's status lies outside the fixed list (and all earlier
checks pass), the handler ends in an uncaught Python exception rather than
any HTTP error response or success, leaving the datastore unchanged. -/
theorem C10_unvalidated_current_status (orders : List Order) (order_id : Nat)
    (new_status : String) (user : UserClaims) (now : String) (updateOk : Bool)
    (order : Order)
    (hrole : user.role = some ("seller"))
    (hfind : orders.find? (fun o => o.id = order_id) = some order)
    (hsell : order.seller_id = user.sub)
    (hns : new_status ∈ Main.ORDER_STATUSES)
    (hbad : order.status ∉ Main.ORDER_STATUSES) :
    Main.update_order_status orders order_id new_status user now updateOk =
      (.pythonError, orders) ∧
    (∀ c d, (Main.update_order_status orders order_id new_status user now
      updateOk).fst ≠ .httpError c d) ∧
    (∀ m i s, (Main.update_order_status orders order_id new_status user now
      updateOk).fst ≠ .ok m i s) := by
  have hcnone : index? Main.ORDER_STATUSES order.status = none :=
    (index?_eq_none_iff _ _).mpr hbad
  obtain ⟨ni, hni⟩ := index?_isSome_of_mem hns
  refine ⟨?_, ?_, ?_⟩ <;>
    simp [Main.update_order_status, hrole, hfind, hsell, hns, hni, hcnone]

/-- Witness for C10 at a concrete input: a stored order whose status is the
out-of-list string Shipped. -/
theorem C10_unvalidated_current_status_witness :
    Main.update_order_status [⟨1, "b1", "s1", "Shipped", [], "c0"⟩] 1
        ("Accepted") ⟨"s1", some ("seller")⟩ ("t1") true =
      (.pythonError, [⟨1, "b1", "s1", "Shipped", [], "c0"⟩]) ∧
    (∀ c d, (Main.update_order_status [⟨1, "b1", "s1", "Shipped", [], "c0"⟩] 1
      ("Accepted") ⟨"s1", some ("seller")⟩ ("t1") true).fst ≠ .httpError c d) ∧
    (∀ m i s, (Main.update_order_status [⟨1, "b1", "s1", "Shipped", [], "c0"⟩] 1
      ("Accepted") ⟨"s1", some ("seller")⟩ ("t1") true).fst ≠ .ok m i s) :=
  C10_unvalidated_current_status [⟨1, "b1", "s1", "Shipped", [], "c0"⟩] 1
    ("Accepted") ⟨"s1", some ("seller")⟩ ("t1") true
    ⟨1, "b1", "s1", "Shipped", [], "c0"⟩ rfl (by decide) (by decide)
    (by decide) (by decide)

/-- C4: send_message persists a row whose translated_message is present
exactly when the two preferred languages differ and the translation gateway
returned a translation; with equal languages the gateway is never invoked
and the stored field is absent; with differing languages and a failing
gateway the row is still stored with the field absent and the call still
returns success. -/
theorem C4_translation_policy (profiles : List Chat.Profile) (user : UserClaims)
    (receiver_id message : String)
    (gw : String → Option String → Option String → Option String) :
    ∃ row,
      (Chat.send_message profiles user receiver_id message gw true).inserted =
        some row ∧
      (Chat.send_message profiles user receiver_id message gw true).result =
        .ok ("Message sent") ∧
      (∀ t, row.translated_message = some t ↔
        (Chat.getLang profiles user.sub ≠ Chat.getLang profiles receiver_id ∧
         gw message (Chat.getLang profiles receiver_id)
           (Chat.getLang profiles user.sub) = some t)) ∧
      (Chat.getLang profiles user.sub = Chat.getLang profiles receiver_id →
        (Chat.send_message profiles user receiver_id message gw
          true).translateCalled = false ∧
        row.translated_message = none) ∧
      (Chat.getLang profiles user.sub ≠ Chat.getLang profiles receiver_id →
        gw message (Chat.getLang profiles receiver_id)
          (Chat.getLang profiles user.sub) = none →
        row.translated_message = none) := by
  by_cases hl : Chat.getLang profiles user.sub = Chat.getLang profiles receiver_id
  · refine ⟨⟨user.sub, receiver_id, message, none⟩, ?_, ?_, ?_, ?_, ?_⟩
    · simp [Chat.send_message, hl]
    · simp [Chat.send_message, hl]
    · intro t
      simp [hl]
    · intro _
      simp [Chat.send_message, hl]
    · intro h
      exact absurd hl h
  · refine ⟨⟨user.sub, receiver_id, message,
      gw message (Chat.getLang profiles receiver_id)
        (Chat.getLang profiles user.sub)⟩, ?_, ?_, ?_, ?_, ?_⟩
    · simp [Chat.send_message, hl]
    · simp [Chat.send_message, hl]
    · intro t
      simp [hl, eq_comm]
    · intro h
      exact absurd h hl
    · intro _ h
      simp [h]

/-- Witness for C4 at a concrete input: differing languages and a succeeding
gateway. -/
theorem C4_translation_policy_witness :
    ∃ row,
      (Chat.send_message [⟨"u1", some ("en")⟩, ⟨"u2", some ("hi")⟩]
        ⟨"u1", some ("buyer")⟩ ("u2") ("hello")
        (fun _ _ _ => some ("namaste")) true).inserted = some row ∧
      (Chat.send_message [⟨"u1", some ("en")⟩, ⟨"u2", some ("hi")⟩]
        ⟨"u1", some ("buyer")⟩ ("u2") ("hello")
        (fun _ _ _ => some ("namaste")) true).result = .ok ("Message sent") ∧
      (∀ t, row.translated_message = some t ↔
        (Chat.getLang [⟨"u1", some ("en")⟩, ⟨"u2", some ("hi")⟩] ("u1") ≠
           Chat.getLang [⟨"u1", some ("en")⟩, ⟨"u2", some ("hi")⟩] ("u2") ∧
         (fun (_ : String) (_ _ : Option String) => some ("namaste")) ("hello")
           (Chat.getLang [⟨"u1", some ("en")⟩, ⟨"u2", some ("hi")⟩] ("u2"))
           (Chat.getLang [⟨"u1", some ("en")⟩, ⟨"u2", some ("hi")⟩] ("u1")) =
             some t)) ∧
      (Chat.getLang [⟨"u1", some ("en")⟩, ⟨"u2", some ("hi")⟩] ("u1") =
          Chat.getLang [⟨"u1", some ("en")⟩, ⟨"u2", some ("hi")⟩] ("u2") →
        (Chat.send_message [⟨"u1", some ("en")⟩, ⟨"u2", some ("hi")⟩]
          ⟨"u1", some ("buyer")⟩ ("u2") ("hello")
          (fun _ _ _ => some ("namaste")) true).translateCalled = false ∧
        row.translated_message = none) ∧
      (Chat.getLang [⟨"u1", some ("en")⟩, ⟨"u2", some ("hi")⟩] ("u1") ≠
          Chat.getLang [⟨"u1", some ("en")⟩, ⟨"u2", some ("hi")⟩] ("u2") →
        (fun (_ : String) (_ _ : Option String) => some ("namaste")) ("hello")
          (Chat.getLang [⟨"u1", some ("en")⟩, ⟨"u2", some ("hi")⟩] ("u2"))
          (Chat.getLang [⟨"u1", some ("en")⟩, ⟨"u2", some ("hi")⟩] ("u1")) =
            none →
        row.translated_message = none) :=
  C4_translation_policy [⟨"u1", some ("en")⟩, ⟨"u2", some ("hi")⟩]
    ⟨"u1", some ("buyer")⟩ ("u2") ("hello") (fun _ _ _ => some ("namaste"))

/-
Row-evolution lemmas for the status-update handler.
-/

theorem Reaches_refl (o : Order) : Reaches o o := by
  refine ⟨rfl, fun k hk => hk, ?_⟩
  cases h : statusIdx o with
  | none => exact Or.inl ⟨rfl, rfl⟩
  | some i => exact Or.inr ⟨i, i, rfl, rfl, le_refl i⟩

theorem Reaches_trans {o1 o2 o3 : Order} (h12 : Reaches o1 o2)
    (h23 : Reaches o2 o3) : Reaches o1 o3 := by
  obtain ⟨hid12, hk12, hs12⟩ := h12
  obtain ⟨hid23, hk23, hs23⟩ := h23
  refine ⟨hid23.trans hid12, fun k hk => hk23 k (hk12 k hk), ?_⟩
  rcases hs12 with ⟨hn1, he1⟩ | ⟨i, j, hi, hj, hij⟩
  · rw [← he1] at hn1 ⊢
    rcases hs23 with ⟨hn2, he2⟩ | ⟨i, j, hi, hj, hij⟩
    · exact Or.inl ⟨hn2, he2⟩
    · exact Or.inr ⟨i, j, hi, hj, hij⟩
  · rcases hs23 with ⟨hn2, he2⟩ | ⟨i2, j2, hi2, hj2, hij2⟩
    · rw [hn2] at hj
      exact Option.noConfusion hj
    · rw [hj] at hi2
      exact Or.inr ⟨i, j2, hi, hj2, le_trans hij (Option.some_injective _ hi2 ▸ hij2)⟩

theorem update_step_keeps_rows (orders : List Order) (oid : Nat) (ns : String)
    (u : UserClaims) (now : String) (ok : Bool)
    (hnd : (orders.map Order.id).Nodup) (o : Order) (ho : o ∈ orders) :
    ∃ o' ∈ (Main.update_order_status orders oid ns u now ok).snd,
      Reaches o o' := by
  by_cases hrole : u.role = some ("seller")
  case neg =>
    exact ⟨o, by simp [Main.update_order_status, hrole, ho], Reaches_refl o⟩
  case pos =>
  cases hfind : orders.find? (fun x => x.id = oid) with
  | none =>
    exact ⟨o, by simp [Main.update_order_status, hrole, hfind, ho], Reaches_refl o⟩
  | some order =>
  by_cases hsell : order.seller_id = u.sub
  case neg =>
    exact ⟨o, by simp [Main.update_order_status, hrole, hfind, hsell, ho],
      Reaches_refl o⟩
  case pos =>
  by_cases hns : ns ∈ Main.ORDER_STATUSES
  case neg =>
    exact ⟨o, by simp [Main.update_order_status, hrole, hfind, hsell, hns, ho],
      Reaches_refl o⟩
  case pos =>
  obtain ⟨ni, hni⟩ := index?_isSome_of_mem hns
  cases hci : index? Main.ORDER_STATUSES order.status with
  | none =>
    exact ⟨o, by simp [Main.update_order_status, hrole, hfind, hsell, hns, hni,
      hci, ho], Reaches_refl o⟩
  | some ci =>
  by_cases htr : ni = ci + 1
  case neg =>
    exact ⟨o, by simp [Main.update_order_status, hrole, hfind, hsell, hns, hni,
      hci, htr, ho], Reaches_refl o⟩
  case pos =>
  cases ok with
  | false =>
    exact ⟨o, by simp [Main.update_order_status, hrole, hfind, hsell, hns, hni,
      hci, htr, ho], Reaches_refl o⟩
  | true =>
  have hsnd : (Main.update_order_status orders oid ns u now true).snd =
      orders.map (fun x =>
        if x.id = oid then
          { x with status := ns,
                   status_timestamps := setItem order.status_timestamps ns now }
        else x) := by
    simp [Main.update_order_status, hrole, hfind, hsell, hns, hni, hci, htr]
  rw [hsnd]
  by_cases hoid : o.id = oid
  case pos =>
    have horder_mem : order ∈ orders := List.mem_of_find?_eq_some hfind
    have horder_id : order.id = oid := by
      have hps := List.find?_some hfind
      simpa using hps
    have hoo : o = order :=
      List.inj_on_of_nodup_map hnd ho horder_mem (by rw [hoid, horder_id])
    subst hoo
    refine ⟨_, List.mem_map_of_mem _ ho, ?_⟩
    simp only [hoid, if_true]
    refine ⟨hoid.symm, fun k hk => hasKey_setItem _ _ _ _ hk, ?_⟩
    exact Or.inr ⟨ci, ni, hci, hni, by omega⟩
  case neg =>
    refine ⟨_, List.mem_map_of_mem _ ho, ?_⟩
    simp only [hoid, if_false]
    exact Reaches_refl o

theorem update_ids (orders : List Order) (oid : Nat) (ns : String)
    (u : UserClaims) (now : String) (ok : Bool) :
    ((Main.update_order_status orders oid ns u now ok).snd).map Order.id =
      orders.map Order.id := by
  by_cases hrole : u.role = some ("seller")
  case neg => simp [Main.update_order_status, hrole]
  case pos =>
  cases hfind : orders.find? (fun x => x.id = oid) with
  | none => simp [Main.update_order_status, hrole, hfind]
  | some order =>
  by_cases hsell : order.seller_id = u.sub
  case neg => simp [Main.update_order_status, hrole, hfind, hsell]
  case pos =>
  by_cases hns : ns ∈ Main.ORDER_STATUSES
  case neg => simp [Main.update_order_status, hrole, hfind, hsell, hns]
  case pos =>
  obtain ⟨ni, hni⟩ := index?_isSome_of_mem hns
  cases hci : index? Main.ORDER_STATUSES order.status with
  | none => simp [Main.update_order_status, hrole, hfind, hsell, hns, hni, hci]
  | some ci =>
  by_cases htr : ni = ci + 1
  case neg =>
    simp [Main.update_order_status, hrole, hfind, hsell, hns, hni, hci, htr]
  case pos =>
  cases ok with
  | false =>
    simp [Main.update_order_status, hrole, hfind, hsell, hns, hni, hci, htr]
  | true =>
    simp [Main.update_order_status, hrole, hfind, hsell, hns, hni, hci, htr,
      List.map_map, Function.comp]
    intro x _
    by_cases hx : x.id = oid <;> simp [hx]

theorem runUpdates_reaches (ops : List UpdateOp) (orders : List Order)
    (hnd : (orders.map Order.id).Nodup) (o : Order) (ho : o ∈ orders) :
    ∃ o' ∈ runUpdates ops orders, Reaches o o' := by
  induction ops generalizing orders o with
  | nil => exact ⟨o, ho, Reaches_refl o⟩
  | cons op ops ih =>
    obtain ⟨o1, ho1, hr1⟩ := update_step_keeps_rows orders op.order_id
      op.new_status op.user op.now op.updateOk hnd o ho
    have hnd1 : (((Main.update_order_status orders op.order_id op.new_status
        op.user op.now op.updateOk).snd).map Order.id).Nodup := by
      rw [update_ids]
      exact hnd
    obtain ⟨o2, ho2, hr2⟩ := ih _ hnd1 o1 ho1
    refine ⟨o2, ?_, Reaches_trans hr1 hr2⟩
    simpa [runUpdates] using ho2

theorem index?_lt_length {xs : List String} {x : String} {i : Nat}
    (h : index? xs x = some i) : i < xs.length := by
  induction xs generalizing i with
  | nil => simp [index?] at h
  | cons y ys ih =>
    by_cases hy : y = x
    · simp [index?, hy] at h
      simp only [List.length_cons]
      omega
    · simp [index?, hy] at h
      obtain ⟨j, hj, hji⟩ := h
      have := ih hj
      simp only [List.length_cons]
      omega

/-- C3: A successful status update stores, for the updated order, exactly the
prior status_timestamps with the single new key for new_status appended and
bound to the supplied current time (so every prior key keeps its value); and
no status-update operation ever removes a key from any stored order's
status_timestamps. -/
theorem C3_timestamps_frame (orders : List Order) (order_id : Nat)
    (new_status : String) (user : UserClaims) (now : String) (order : Order)
    (hfind : orders.find? (fun o => o.id = order_id) = some order)
    (hwf : WFOrder order)
    (hok : (Main.update_order_status orders order_id new_status user now
      true).fst = .ok ("Order status updated") order_id new_status) :
    (∃ order',
      ((Main.update_order_status orders order_id new_status user now
        true).snd).find? (fun o => o.id = order_id) = some order' ∧
      order'.status = new_status ∧
      order'.status_timestamps =
        order.status_timestamps ++ [(new_status, now)]) ∧
    (∀ orders2 oid2 ns2 u2 now2 ok2 o,
      (orders2.map Order.id).Nodup → o ∈ orders2 →
      ∃ o' ∈ (Main.update_order_status orders2 oid2 ns2 u2 now2 ok2).snd,
        o'.id = o.id ∧ keysSub o.status_timestamps o'.status_timestamps) := by
  constructor
  · by_cases hrole : user.role = some ("seller")
    case neg => simp [Main.update_order_status, hrole] at hok
    case pos =>
    by_cases hsell : order.seller_id = user.sub
    case neg => simp [Main.update_order_status, hrole, hfind, hsell] at hok
    case pos =>
    by_cases hns : new_status ∈ Main.ORDER_STATUSES
    case neg => simp [Main.update_order_status, hrole, hfind, hsell, hns] at hok
    case pos =>
    obtain ⟨ni, hni⟩ := index?_isSome_of_mem hns
    obtain ⟨ci, hci, hbound⟩ := hwf
    have hci2 : index? Main.ORDER_STATUSES order.status = some ci := hci
    by_cases htr : ni = ci + 1
    case neg =>
      simp [Main.update_order_status, hrole, hfind, hsell, hns, hni, hci2,
        htr] at hok
    case pos =>
    have hnokey : hasKey order.status_timestamps new_status = false := by
      cases hk : hasKey order.status_timestamps new_status with
      | false => rfl
      | true =>
        obtain ⟨i, hi, hile⟩ := hbound new_status hk
        rw [hni] at hi
        obtain rfl : ni = i := Option.some_injective _ hi
        omega
    refine Exists.intro
      { order with status := new_status,
                   status_timestamps :=
                     setItem order.status_timestamps new_status now }
      ⟨?_, rfl, ?_⟩
    · have hsnd : (Main.update_order_status orders order_id new_status user now
          true).snd = orders.map (fun x =>
            if x.id = order_id then
              { x with status := new_status,
                       status_timestamps :=
                         setItem order.status_timestamps new_status now }
            else x) := by
        simp [Main.update_order_status, hrole, hfind, hsell, hns, hni, hci2, htr]
      rw [hsnd, List.find?_map]
      have hfn : ((fun o : Order => decide (o.id = order_id)) ∘ (fun x : Order =>
          if x.id = order_id then
            { x with status := new_status,
                     status_timestamps :=
                       setItem order.status_timestamps new_status now }
          else x)) = (fun o : Order => decide (o.id = order_id)) := by
        funext x
        by_cases hx : x.id = order_id <;> simp [Function.comp, hx]
      rw [hfn, hfind]
      have hordid : order.id = order_id := by
        have hps := List.find?_some hfind
        simpa using hps
      simp [hordid]
    · exact setItem_of_not_hasKey now hnokey
  · intro orders2 oid2 ns2 u2 now2 ok2 o hnd ho
    obtain ⟨o', ho', hid, hkeys, _⟩ :=
      update_step_keeps_rows orders2 oid2 ns2 u2 now2 ok2 hnd o ho
    exact ⟨o', ho', hid, hkeys⟩

/-- Witness for C3 at a concrete input: an order at Placed with the Placed
timestamp recorded, successfully moved to Accepted. -/
theorem C3_timestamps_frame_witness :
    (∃ order',
      ((Main.update_order_status [⟨1, "b1", "s1", "Placed", [("Placed", "t0")],
        "c0"⟩] 1 ("Accepted") ⟨"s1", some ("seller")⟩ ("t1") true).snd).find?
          (fun o => o.id = 1) = some order' ∧
      order'.status = "Accepted" ∧
      order'.status_timestamps = [("Placed", "t0")] ++ [("Accepted", "t1")]) ∧
    (∀ orders2 oid2 ns2 u2 now2 ok2 o,
      (orders2.map Order.id).Nodup → o ∈ orders2 →
      ∃ o' ∈ (Main.update_order_status orders2 oid2 ns2 u2 now2 ok2).snd,
        o'.id = o.id ∧ keysSub o.status_timestamps o'.status_timestamps) :=
  C3_timestamps_frame [⟨1, "b1", "s1", "Placed", [("Placed", "t0")], "c0"⟩] 1
    ("Accepted") ⟨"s1", some ("seller")⟩ ("t1")
    ⟨1, "b1", "s1", "Placed", [("Placed", "t0")], "c0"⟩ (by decide)
    ⟨0, by decide, by
      intro k hk
      simp [hasKey] at hk
      exact ⟨0, by rw [← hk]; decide, le_refl 0⟩⟩
    (by decide)

/-- C8: Delivered is terminal: the seller of an order stored at Delivered has
every update attempt rejected with BadRequest for every supplied new_status,
with the datastore unchanged; and over any sequence of status-update
requests every stored order only ever evolves along Reaches, which never
moves its status index backward and never loses a timestamp key. -/
theorem C8_delivered_terminal :
    (∀ orders oid ns u now ok order,
      u.role = some ("seller") →
      orders.find? (fun o => o.id = oid) = some order →
      order.seller_id = u.sub →
      order.status = "Delivered" →
      ∃ detail, Main.update_order_status orders oid ns u now ok =
        (.httpError 400 detail, orders)) ∧
    (∀ ops orders o, (orders.map Order.id).Nodup → o ∈ orders →
      ∃ o' ∈ runUpdates ops orders, Reaches o o') := by
  constructor
  · intro orders oid ns u now ok order hrole hfind hsell hst
    by_cases hns : ns ∈ Main.ORDER_STATUSES
    · have hci : index? Main.ORDER_STATUSES order.status = some 3 := by
        rw [hst]
        decide
      obtain ⟨ni, hni⟩ := index?_isSome_of_mem hns
      have hlt : ni < 4 := index?_lt_length hni
      have htr : ni ≠ 3 + 1 := by omega
      exact ⟨"Invalid status transition", by
        simp [Main.update_order_status, hrole, hfind, hsell, hns, hni, hci, htr]⟩
    · exact ⟨"Invalid status", by
        simp [Main.update_order_status, hrole, hfind, hsell, hns]⟩
  · intro ops orders o hnd ho
    exact runUpdates_reaches ops orders hnd o ho

/-- Witness for C8 at concrete inputs: a Delivered order rejects a further
update by its seller, and a singleton table evolves along Reaches under one
request. -/
theorem C8_delivered_terminal_witness :
    (∃ detail, Main.update_order_status
        [⟨1, "b1", "s1", "Delivered", [], "c0"⟩] 1 ("Placed")
        ⟨"s1", some ("seller")⟩ ("t1") true =
      (.httpError 400 detail, [⟨1, "b1", "s1", "Delivered", [], "c0"⟩])) ∧
    (∃ o' ∈ runUpdates [⟨1, "Accepted", ⟨"s1", some ("seller")⟩, "t1", true⟩]
        [⟨1, "b1", "s1", "Placed", [], "c0"⟩],
      Reaches ⟨1, "b1", "s1", "Placed", [], "c0"⟩ o') :=
  ⟨C8_delivered_terminal.1 [⟨1, "b1", "s1", "Delivered", [], "c0"⟩] 1 ("Placed")
      ⟨"s1", some ("seller")⟩ ("t1") true
      ⟨1, "b1", "s1", "Delivered", [], "c0"⟩ rfl (by decide) (by decide) rfl,
   C8_delivered_terminal.2 [⟨1, "Accepted", ⟨"s1", some ("seller")⟩, "t1", true⟩]
      [⟨1, "b1", "s1", "Placed", [], "c0"⟩]
      ⟨1, "b1", "s1", "Placed", [], "c0"⟩ (by decide) (by decide)⟩

/-- C5 counterexample: the conversation id A_A decomposes into two equal
components, yet get_messages does not reject it when the caller is A: the
call succeeds with an empty page rather than returning any error. -/
theorem C5_counterexample_equal_components :
    Chat.get_messages [] ("A_A") ⟨"A", some ("buyer")⟩ 50 0 true = .ok [] ∧
    Chat.get_messages [] ("A_A") ⟨"A", some ("buyer")⟩ 50 0 true ≠
      .httpError 403 ("Forbidden") ∧
    Chat.get_messages [] ("A_A") ⟨"A", some ("buyer")⟩ 50 0 true ≠
      .httpError 400 ("Invalid conversation_id") := by
  refine ⟨?_, ?_, ?_⟩ <;> decide

/-- C5 amended: get_messages requires the conversation id to split on the
underscore into exactly two components (else BadRequest) and the caller to
be one of them (else Forbidden); distinctness of the two components is not
checked, so an id whose two components are equal is accepted whenever the
caller equals that component. -/
theorem C5_amended_conversation_checks (store : List Chat.MessageRow)
    (conversation_id : String) (user : UserClaims) (limit offset : Nat) :
    ((pySplit '_' conversation_id).length ≠ 2 →
      ∀ fetchOk, Chat.get_messages store conversation_id user limit offset
        fetchOk = .httpError 400 ("Invalid conversation_id")) ∧
    (∀ a b, pySplit '_' conversation_id = [a, b] →
      user.sub ≠ a → user.sub ≠ b →
      ∀ fetchOk, Chat.get_messages store conversation_id user limit offset
        fetchOk = .httpError 403 ("Forbidden")) ∧
    (∀ a, pySplit '_' conversation_id = [a, a] → user.sub = a →
      ∃ msgs, Chat.get_messages store conversation_id user limit offset
        true = .ok msgs) := by
  refine ⟨?_, ?_, ?_⟩
  · intro h fetchOk
    simp [Chat.get_messages, h]
  · intro a b hs ha hb fetchOk
    simp [Chat.get_messages, hs, ha, hb]
  · intro a hs hsub
    refine ⟨Chat.rangeRows (List.insertionSort Chat.tsLe (store.filter
      (fun m => Chat.inConversation a a m))) offset (offset + limit - 1), ?_⟩
    simp [Chat.get_messages, hs, hsub, Chat.rangeRows]

/-- Witness for C5 amended at concrete inputs: a three-component id is
rejected as BadRequest, an outside caller is rejected as Forbidden, and the
equal-component id A_A is accepted for caller A. -/
theorem C5_amended_conversation_checks_witness :
    Chat.get_messages [] ("A_B_C") ⟨"A", some ("buyer")⟩ 50 0 true =
      .httpError 400 ("Invalid conversation_id") ∧
    Chat.get_messages [] ("A_B") ⟨"C", some ("buyer")⟩ 50 0 true =
      .httpError 403 ("Forbidden") ∧
    ∃ msgs, Chat.get_messages [] ("A_A") ⟨"A", some ("buyer")⟩ 50 0 true =
      .ok msgs :=
  ⟨(C5_amended_conversation_checks [] ("A_B_C") ⟨"A", some ("buyer")⟩ 50 0).1
      (by decide) true,
   (C5_amended_conversation_checks [] ("A_B") ⟨"C", some ("buyer")⟩ 50 0).2.1
      ("A") ("B") (by decide) (by decide) (by decide) true,
   (C5_amended_conversation_checks [] ("A_A") ⟨"A", some ("buyer")⟩ 50 0).2.2
      ("A") (by decide) rfl⟩

/-- C6: For an authorized call with limit at least 1, get_messages returns
exactly the stored messages whose sender/receiver pair matches the
conversation in either direction, sorted ascending by timestamp and
restricted to positions offset through offset plus limit exclusive, each
returned row being a verbatim member of the store. -/
theorem C6_get_messages_page (store : List Chat.MessageRow)
    (conversation_id : String) (a b : String) (user : UserClaims)
    (limit offset : Nat)
    (hsplit : pySplit '_' conversation_id = [a, b])
    (hcaller : user.sub = a ∨ user.sub = b)
    (hlimit : 1 ≤ limit) :
    Chat.get_messages store conversation_id user limit offset true =
      .ok (((List.insertionSort Chat.tsLe (store.filter
        (fun m => Chat.inConversation a b m))).drop offset).take limit) ∧
    List.Sorted Chat.tsLe (List.insertionSort Chat.tsLe (store.filter
      (fun m => Chat.inConversation a b m))) ∧
    (∀ m ∈ ((List.insertionSort Chat.tsLe (store.filter
        (fun m => Chat.inConversation a b m))).drop offset).take limit,
      m ∈ store ∧ Chat.inConversation a b m) := by
  refine ⟨?_, ?_, ?_⟩
  · have harith : offset + limit - 1 + 1 - offset = limit := by omega
    have hmem : user.sub ∈ [a, b] := by
      rcases hcaller with h | h <;> simp [h]
    simp [Chat.get_messages, hsplit, hmem, Chat.rangeRows, harith]
  · exact List.sorted_insertionSort Chat.tsLe _
  · intro m hm
    have hm1 : m ∈ (List.insertionSort Chat.tsLe (store.filter
        (fun m => Chat.inConversation a b m))).drop offset :=
      List.mem_of_mem_take hm
    have hm2 : m ∈ List.insertionSort Chat.tsLe (store.filter
        (fun m => Chat.inConversation a b m)) :=
      List.mem_of_mem_drop hm1
    have hm3 : m ∈ store.filter (fun m => Chat.inConversation a b m) :=
      (List.perm_insertionSort Chat.tsLe _).mem_iff.mp hm2
    have hsplit2 := List.mem_filter.mp hm3
    exact ⟨hsplit2.1, of_decide_eq_true hsplit2.2⟩

/-- Witness for C6 at a concrete input: a two-message store for conversation
A_B queried by caller A with the default paging values. -/
theorem C6_get_messages_page_witness :
    Chat.get_messages [⟨1, "A", "B", "hi", none, "t1"⟩,
        ⟨2, "B", "A", "yo", some ("hey"), "t2"⟩] ("A_B")
      ⟨"A", some ("buyer")⟩ 50 0 true =
      .ok (((List.insertionSort Chat.tsLe
        (([⟨1, "A", "B", "hi", none, "t1"⟩,
           ⟨2, "B", "A", "yo", some ("hey"), "t2"⟩] : List Chat.MessageRow).filter
          (fun m => Chat.inConversation ("A") ("B") m))).drop 0).take 50) ∧
    List.Sorted Chat.tsLe (List.insertionSort Chat.tsLe
      (([⟨1, "A", "B", "hi", none, "t1"⟩,
         ⟨2, "B", "A", "yo", some ("hey"), "t2"⟩] : List Chat.MessageRow).filter
        (fun m => Chat.inConversation ("A") ("B") m))) ∧
    (∀ m ∈ ((List.insertionSort Chat.tsLe
        (([⟨1, "A", "B", "hi", none, "t1"⟩,
           ⟨2, "B", "A", "yo", some ("hey"), "t2"⟩] : List Chat.MessageRow).filter
          (fun m => Chat.inConversation ("A") ("B") m))).drop 0).take 50,
      m ∈ ([⟨1, "A", "B", "hi", none, "t1"⟩,
            ⟨2, "B", "A", "yo", some ("hey"), "t2"⟩] : List Chat.MessageRow) ∧
      Chat.inConversation ("A") ("B") m) :=
  C6_get_messages_page [⟨1, "A", "B", "hi", none, "t1"⟩,
      ⟨2, "B", "A", "yo", some ("hey"), "t2"⟩] ("A_B") ("A") ("B")
    ⟨"A", some ("buyer")⟩ 50 0 (by decide) (Or.inl rfl) (by decide)
